import Mathlib

/-!
# Verification of the Voxa resilient-dispatch core

A shallow embedding, in Lean 4, of the state machines and pure computations of
the Voxa HTTP client's resilience components, transcribed from the TypeScript
sources:

* `src/features/circuit-breaker/circuit-breaker.ts` — `CircuitBreakerManager`
* `src/src/lib/features/retry/manager.ts`           — `RetryManager`
* `src/src/lib/client/request.ts`                   — `dispatchRequest`
* `src/src/lib/client/security.ts`                  — `isPrivateIp` and friends
* `src/src/lib/features/cache/manager.ts`           — `CacheManager`
* `src/src/lib/features/queue/manager.ts`           — `QueueManager`, `RateLimiter`
* `src/src/lib/client/voxa.ts`                      — `Voxa.request`

Conventions: JavaScript `Date.now()` timestamps are modelled as `Nat`
milliseconds (the clock is monotone in every scenario considered); JavaScript
numbers holding configuration values are modelled as `Nat` or `Int` as
appropriate; `Map` objects are modelled as association lists; promises and
`async` control flow are flattened into explicit state passing; code that can
`throw` is modelled with `Option`, a `catch` branch becoming a `match` on
`none`.
-/

namespace Voxa

/-! ## Circuit breaker (`src/features/circuit-breaker/circuit-breaker.ts`)

`CircuitState` mirrors the `enum CircuitState { CLOSED, OPEN, HALF_OPEN }`.
The constructor for `OPEN` is called `opened` because `open` is a Lean
keyword. -/

inductive CircuitState where
  | closed
  | opened
  | halfOpen
deriving DecidableEq, Repr

/-- `CircuitBreakerConfig` from the source: optional `threshold` (failures
before opening, default 5 at use sites) and optional `timeout` (cooldown in
ms, default 30000 at use sites).  The `onOpen` callback is modelled by
counting its invocations in the manager state (`onOpenCalls`). -/
structure CircuitBreakerConfig where
  threshold : Option Nat
  timeout : Option Nat
deriving DecidableEq, Repr

/-- The mutable fields of `CircuitBreakerManager`: `state`, `failureCount`,
`lastFailureTime`, plus `onOpenCalls`, which counts how many times the
`config.onOpen` callback has been invoked (the callback itself is opaque to
the core state machine). Initial values mirror the field initialisers:
`CLOSED`, `0`, `0`. -/
structure CircuitBreakerManager where
  state : CircuitState := .closed
  failureCount : Nat := 0
  lastFailureTime : Nat := 0
  onOpenCalls : Nat := 0
deriving DecidableEq, Repr

/-- `shouldOpenCircuit()`: `failureCount >= (config.threshold ?? 5)`. -/
def shouldOpenCircuit (cfg : CircuitBreakerConfig) (cb : CircuitBreakerManager) : Bool :=
  cb.failureCount ≥ cfg.threshold.getD 5

/-- `canAttemptRequest()`, with `Date.now()` passed in as `now`.  Returns the
boolean result and the (possibly updated) manager, since the OPEN → HALF_OPEN
transition happens as a side effect of the check:

* CLOSED: `true`, unchanged;
* OPEN: if `now - lastFailureTime > (config.timeout ?? 30000)` then the state
  becomes HALF_OPEN and the result is `true`, else `false`, unchanged;
* HALF_OPEN: `true`, unchanged (the final `return this.state === HALF_OPEN`). -/
def canAttemptRequest (cfg : CircuitBreakerConfig) (now : Nat)
    (cb : CircuitBreakerManager) : Bool × CircuitBreakerManager :=
  match cb.state with
  | .closed => (true, cb)
  | .opened =>
      let timeout := cfg.timeout.getD 30000
      let timeSinceFailure := now - cb.lastFailureTime
      if timeSinceFailure > timeout then
        (true, { cb with state := .halfOpen })
      else
        (false, cb)
  | .halfOpen => (true, cb)

/-- `recordFailure()`: increment `failureCount`, stamp `lastFailureTime`,
and if `shouldOpenCircuit()` then set the state to OPEN and invoke
`config.onOpen` (modelled by bumping `onOpenCalls`). -/
def recordFailure (cfg : CircuitBreakerConfig) (now : Nat)
    (cb : CircuitBreakerManager) : CircuitBreakerManager :=
  let cb' := { cb with failureCount := cb.failureCount + 1, lastFailureTime := now }
  if shouldOpenCircuit cfg cb' then
    { cb' with state := .opened, onOpenCalls := cb'.onOpenCalls + 1 }
  else
    cb'

/-- `recordSuccess()`: reset the failure count and close the circuit. -/
def recordSuccess (cb : CircuitBreakerManager) : CircuitBreakerManager :=
  { cb with failureCount := 0, state := .closed }

/-- An externally observable operation on a `CircuitBreakerManager`, with the
`Date.now()` value at which it happens. -/
inductive CBOp where
  | fail (now : Nat)
  | succeed
  | attempt (now : Nat)
deriving DecidableEq, Repr

/-- Apply a single operation to the manager (the boolean result of
`canAttemptRequest` is discarded; only the state evolution matters here). -/
def applyCBOp (cfg : CircuitBreakerConfig) (cb : CircuitBreakerManager) :
    CBOp → CircuitBreakerManager
  | .fail now => recordFailure cfg now cb
  | .succeed => recordSuccess cb
  | .attempt now => (canAttemptRequest cfg now cb).2

/-- Run a sequence of operations from a given manager state. -/
def runCB (cfg : CircuitBreakerConfig) (cb : CircuitBreakerManager)
    (ops : List CBOp) : CircuitBreakerManager :=
  ops.foldl (applyCBOp cfg) cb

/-- Trace-level count of the `recordFailure` calls whose post-increment
failure count reaches the threshold, tracking only the failure counter
(`c` is the counter before the remaining operations). These are exactly the
calls on which the source's `recordFailure` invokes `config.onOpen`. -/
def onOpenEvents (threshold : Nat) : Nat → List CBOp → Nat
  | _, [] => 0
  | c, .fail _ :: ops =>
      (if c + 1 ≥ threshold then 1 else 0) + onOpenEvents threshold (c + 1) ops
  | _, .succeed :: ops => onOpenEvents threshold 0 ops
  | c, .attempt _ :: ops => onOpenEvents threshold c ops

/-- Trace-level count of CLOSED → OPEN transitions of the state machine along
a sequence of operations. -/
def closedToOpenEvents (cfg : CircuitBreakerConfig) (cb : CircuitBreakerManager) :
    List CBOp → Nat
  | [] => 0
  | op :: ops =>
      let cb' := applyCBOp cfg cb op
      (if cb.state = .closed ∧ cb'.state = .opened then 1 else 0) +
        closedToOpenEvents cfg cb' ops

/-! ## Retry engine (`src/src/lib/features/retry/manager.ts`) -/

/-- `RetryManager.calculateRetryDelay(attempt, delay, exponentialBackoff,
maxRetry)`: `waitTime = exponentialBackoff ? delay * 2 ** attempt : delay`;
result `Math.min(waitTime, maxRetry)`.  Delays are JavaScript numbers; the
integer case is modelled exactly with `Int`. -/
def calculateRetryDelay (attempt : Nat) (delay : Int) (exponentialBackoff : Bool)
    (maxRetry : Int) : Int :=
  let waitTime := if exponentialBackoff then delay * 2 ^ attempt else delay
  min waitTime maxRetry

/-- The `count` field of `RetryManager.getRetryConfig`:
`Math.min(merged.count ?? 5, 5)`.  Modelled over `Int` so that an (absurd)
negative configured count is represented faithfully. -/
def getRetryCount (count : Option Int) : Int :=
  min (count.getD 5) 5

/-- `RetryManager.shouldRetryStatus(statusCode, statusCodes)`:
membership in `statusCodes ?? [429, 500, 502, 503, 504]`. -/
def shouldRetryStatus (statusCode : Nat) (statusCodes : Option (List Nat)) : Bool :=
  (statusCodes.getD [429, 500, 502, 503, 504]).contains statusCode

/-- `Response.ok` of the Fetch API: status in the range 200–299. -/
def responseOk (status : Nat) : Bool :=
  200 ≤ status ∧ status ≤ 299

/-! ## The dispatch loop (`src/src/lib/client/request.ts`, `dispatchRequest`)

One iteration of the `for (let attempt = 0; attempt < maxAttempts; attempt++)`
loop either returns a response, throws, or retries.  What the environment does
on a given attempt (the `fetch` call together with the SafetyGuard checks
preceding it) is abstracted as an oracle `Nat → AttemptOutcome`. -/

/-- The possible outcomes of one attempt body:

* `response status` — `fetch` resolved with this status (and no private
  redirect);
* `blocked` — one of the SafetyGuard `throw new Error('Blocked: …')` paths
  (invalid URL, private IP, private redirect): a non-retryable `Error`;
* `networkError retryable` — the attempt threw; `retryable` is the source's
  `error.name === 'AbortError' || error.name === 'TypeError' ||
  error.message.includes('fetch')`;
* `abortedSignal` — `effectiveSignal.aborted` was set, so the catch block
  rethrows immediately. -/
inductive AttemptOutcome where
  | response (status : Nat)
  | blocked
  | networkError (retryable : Bool)
  | abortedSignal
deriving DecidableEq, Repr

/-- The final result of the dispatch loop. -/
inductive DispatchResult where
  | returned (status : Nat)
  | threw
  | exhausted
deriving DecidableEq, Repr

/-- The retry loop of `dispatchRequest`, with fuel counting the remaining
loop iterations (initially `maxAttempts = count + 1`).  Returns the number of
attempts actually performed paired with the result.  Transcription of the
branching:

* a response that is not `ok` and whose status is in the retryable set is
  retried while `attempt < retryConfig.count`, otherwise returned;
* `blocked` errors are not retryable (name `'Error'`, message without
  `'fetch'`) and are rethrown;
* thrown errors with `retryable` true are retried while
  `attempt < retryConfig.count`, otherwise rethrown;
* an aborted signal rethrows immediately. -/
def dispatchLoop (outcomes : Nat → AttemptOutcome) (count : Int)
    (codes : Option (List Nat)) : Nat → Nat → Nat × DispatchResult
  | _, 0 => (0, .exhausted)
  | attempt, fuel + 1 =>
      match outcomes attempt with
      | .response s =>
          if ¬ responseOk s ∧ shouldRetryStatus s codes ∧ (attempt : Int) < count then
            ((dispatchLoop outcomes count codes (attempt + 1) fuel).1 + 1,
             (dispatchLoop outcomes count codes (attempt + 1) fuel).2)
          else
            (1, .returned s)
      | .blocked => (1, .threw)
      | .networkError retryable =>
          if retryable ∧ (attempt : Int) < count then
            ((dispatchLoop outcomes count codes (attempt + 1) fuel).1 + 1,
             (dispatchLoop outcomes count codes (attempt + 1) fuel).2)
          else
            (1, .threw)
      | .abortedSignal => (1, .threw)

/-- `dispatchRequest`, seen only through how many attempts it performs: the
retry count from config is clamped by `getRetryConfig` and the loop gets
`maxAttempts = count + 1` iterations of fuel. -/
def dispatchAttempts (cfgCount : Option Int) (codes : Option (List Nat))
    (outcomes : Nat → AttemptOutcome) : Nat :=
  (dispatchLoop outcomes (getRetryCount cfgCount) codes 0
    (getRetryCount cfgCount + 1).toNat).1

/-! ## SSRF guard (`src/src/lib/client/security.ts`)

An IP address is modelled in parsed form: an IPv4 address as its list of
dot-separated octets, an IPv6 address as its list of colon-separated group
values, where an empty group (`''`, as produced by `'::1'.split(':')`)
becomes `0` (it is `padStart(4, '0')`-ed to `'0000'`).  Note the source does
*not* expand the `::` shorthand to eight groups, so e.g. `'fc00::'` denotes
the 3-group number `0xfc0000000000`; the model reproduces this faithfully. -/

inductive IpAddr where
  | v4 (octets : List Nat)
  | v6 (groups : List Nat)
deriving DecidableEq, Repr

/-- `ipToLong(ip)`: an IPv6 string is the hex concatenation of its padded
groups (base 65536); an IPv4 string is the octet fold
`(acc << 8n) + BigInt(octet)` (base 256). -/
def ipToLong : IpAddr → Nat
  | .v4 octets => octets.foldl (fun acc o => acc * 256 + o) 0
  | .v6 groups => groups.foldl (fun acc g => acc * 65536 + g) 0

/-- The `privateRanges` table, transcribed entry by entry:
`10.0.0.0–10.255.255.255`, `172.16.0.0–172.31.255.255`,
`192.168.0.0–192.168.255.255`, `127.0.0.0–127.255.255.255`, `::1–::1`,
`fc00::–fdff:ffff:ffff:ffff:ffff:ffff:ffff:ffff`,
`fe80::–febf:ffff:ffff:ffff:ffff:ffff:ffff:ffff`. -/
def privateRanges : List (IpAddr × IpAddr) :=
  [ (.v4 [10, 0, 0, 0], .v4 [10, 255, 255, 255]),
    (.v4 [172, 16, 0, 0], .v4 [172, 31, 255, 255]),
    (.v4 [192, 168, 0, 0], .v4 [192, 168, 255, 255]),
    (.v4 [127, 0, 0, 0], .v4 [127, 255, 255, 255]),
    (.v6 [0, 0, 1], .v6 [0, 0, 1]),
    (.v6 [0xfc00, 0, 0],
      .v6 [0xfdff, 0xffff, 0xffff, 0xffff, 0xffff, 0xffff, 0xffff, 0xffff]),
    (.v6 [0xfe80, 0, 0],
      .v6 [0xfebf, 0xffff, 0xffff, 0xffff, 0xffff, 0xffff, 0xffff, 0xffff]) ]

/-- `inRange(ip, start, end)`: numeric containment via `ipToLong`.  (The
source wraps this in `try … catch { return false }`; in the parsed model
`ipToLong` is total, so no catch branch arises.) -/
def inRange (ip start stop : IpAddr) : Bool :=
  ipToLong start ≤ ipToLong ip ∧ ipToLong ip ≤ ipToLong stop

/-- Whether a single address falls in some entry of `privateRanges`. -/
def addrIsPrivate (a : IpAddr) : Bool :=
  privateRanges.any fun r => inRange a r.1 r.2

/-- The hostname of a successfully parsed URL: either a literal IP (the
`net.isIP(host)` branch) or a DNS name. -/
inductive UrlHost where
  | ip (a : IpAddr)
  | name (host : String)
deriving DecidableEq, Repr

/-- `isPrivateIp(urlStr)`.  URL parsing and DNS resolution are abstracted:
`parsed` is `none` when `new URL(urlStr)` throws, and `lookup h` is `none`
when `dns.lookup(h, { all: true })` rejects, in both cases landing in the
function's `catch { return false }`.  A literal-IP host is checked directly
against `privateRanges`; otherwise every resolved address is checked
(`addresses.some(…)`). -/
def isPrivateIp (parsed : Option UrlHost)
    (lookup : String → Option (List IpAddr)) : Bool :=
  match parsed with
  | none => false
  | some (.ip a) => addrIsPrivate a
  | some (.name h) =>
      match lookup h with
      | none => false
      | some addresses => addresses.any addrIsPrivate

/-! ## Response cache (`src/src/lib/features/cache/manager.ts`)

The three interchangeable stores (in-memory `Map`, `FileStorage`, custom
adapter) are modelled as association lists from keys to entries; the
JSON-serialisation round trip of the file/custom branches is the identity on
the modelled fields.  The response payload is abstracted as a `String`
snapshot.  The `setTimeout` cleanup scheduled by the memory branch of `set`
and the `catch` paths around adapter I/O do not affect the properties proved
here and are omitted. -/

/-- A `CacheEntry`: response snapshot, creation time, TTL and absolute
expiry (`requestId` omitted as irrelevant to expiry behaviour). -/
structure CacheEntryM where
  response : String
  timestamp : Nat
  ttl : Nat
  expiresAt : Nat
deriving DecidableEq, Repr

/-- Cache storage backends. -/
inductive CacheStorage where
  | memory
  | file
  | custom
deriving DecidableEq, Repr

/-- The configuration and store contents of a `CacheManager`.  Exactly one
store is in use, selected by `storage`; the others stay empty. -/
structure CacheManagerM where
  enabled : Bool
  configTtl : Option Nat
  storage : CacheStorage
  memoryCache : List (String × CacheEntryM) := []
  fileStore : List (String × CacheEntryM) := []
  customStore : List (String × CacheEntryM) := []
deriving DecidableEq, Repr

/-- JavaScript `a || b` on numbers treats `0` (and a missing value) as
falsy. -/
def orFalsy (a : Option Nat) (b : Nat) : Nat :=
  match a with
  | some v => if v = 0 then b else v
  | none => b

/-- The store selected by the manager's `storage` type. -/
def CacheManagerM.store (m : CacheManagerM) : List (String × CacheEntryM) :=
  match m.storage with
  | .memory => m.memoryCache
  | .file => m.fileStore
  | .custom => m.customStore

/-- Replace the selected store's contents. -/
def CacheManagerM.withStore (m : CacheManagerM)
    (s : List (String × CacheEntryM)) : CacheManagerM :=
  match m.storage with
  | .memory => { m with memoryCache := s }
  | .file => { m with fileStore := s }
  | .custom => { m with customStore := s }

/-- Association-list update with `Map.set` semantics: replace the binding if
the key is present, else append. -/
def listSet (key : String) (v : CacheEntryM) :
    List (String × CacheEntryM) → List (String × CacheEntryM)
  | [] => [(key, v)]
  | (k, w) :: rest =>
      if k = key then (k, v) :: rest else (k, w) :: listSet key v rest

/-- Association-list lookup (`Map.get` / adapter `get`). -/
def listGet (key : String) : List (String × CacheEntryM) → Option CacheEntryM
  | [] => none
  | (k, v) :: rest => if k = key then some v else listGet key rest

/-- Association-list removal (`Map.delete` / adapter `delete`). -/
def listDelete (key : String) :
    List (String × CacheEntryM) → List (String × CacheEntryM)
  | [] => []
  | (k, v) :: rest =>
      if k = key then rest else (k, v) :: listDelete key rest

/-- `CacheManager.isValid(entry)`: `Date.now() < entry.expiresAt`. -/
def cacheIsValid (now : Nat) (e : CacheEntryM) : Bool :=
  now < e.expiresAt

/-- `CacheManager.set(key, response, requestId, ttl?)` at time `now`:
no-op when the feature is disabled; otherwise
`cacheTTL = ttl || config.ttl || 300000`, and the entry
`{ response, timestamp: now, ttl: cacheTTL, expiresAt: now + cacheTTL }`
is written to the selected store (every storage branch stores the same
timestamp/ttl/expiresAt fields). -/
def cacheSet (key : String) (response : String) (ttl : Option Nat) (now : Nat)
    (m : CacheManagerM) : CacheManagerM :=
  if ¬ m.enabled then m
  else
    let cacheTTL := orFalsy ttl (orFalsy m.configTtl 300000)
    let entry : CacheEntryM :=
      { response := response, timestamp := now, ttl := cacheTTL,
        expiresAt := now + cacheTTL }
    m.withStore (listSet key entry m.store)

/-- `CacheManager.get(key)` at time `now`: `null` when disabled; otherwise
the selected store is probed and — in every storage branch, including file
and custom adapters that do not auto-expire — the entry is re-validated with
`isValid`: a stale entry is deleted and a miss reported, a fresh one is
returned. -/
def cacheGet (key : String) (now : Nat) (m : CacheManagerM) :
    Option CacheEntryM × CacheManagerM :=
  if ¬ m.enabled then (none, m)
  else
    match listGet key m.store with
    | none => (none, m)
    | some entry =>
        if ¬ cacheIsValid now entry then
          (none, m.withStore (listDelete key m.store))
        else
          (some entry, m)

/-! ## Admission queue (`src/src/lib/features/queue/manager.ts`,
`QueueManager`) -/

/-- Request priorities. -/
inductive Priority where
  | critical
  | high
  | normal
  | low
deriving DecidableEq, Repr

/-- The priority table of `sortQueue`:
`{ critical: 4, high: 3, normal: 2, low: 1 }` (the `|| 2` fallback for
unknown strings cannot arise for the typed priorities). -/
def priorityNum : Priority → Nat
  | .critical => 4
  | .high => 3
  | .normal => 2
  | .low => 1

/-- A queued request, reduced to the fields the ordering depends on plus an
identifier (the executor and resolve/reject closures carry no ordering
information). -/
structure QueueItem where
  id : String
  priority : Priority
  timestamp : Nat
deriving DecidableEq, Repr

/-- The order imposed by `sortQueue`'s comparator: `a` precedes `b` when `a`
has strictly higher priority, or equal priority and an earlier-or-equal
enqueue timestamp. -/
def queueLE (a b : QueueItem) : Prop :=
  priorityNum b.priority < priorityNum a.priority ∨
    (priorityNum a.priority = priorityNum b.priority ∧ a.timestamp ≤ b.timestamp)

instance : DecidableRel queueLE := fun a b =>
  inferInstanceAs (Decidable (priorityNum b.priority < priorityNum a.priority ∨
    (priorityNum a.priority = priorityNum b.priority ∧ a.timestamp ≤ b.timestamp)))

instance : IsTotal QueueItem queueLE where
  total a b := by
    unfold queueLE
    omega

instance : IsTrans QueueItem queueLE where
  trans a b c hab hbc := by
    unfold queueLE at *
    omega

/-- `sortQueue()`: sort the queue by the comparator.  `Array.prototype.sort`
produces a permutation ordered by the comparator; it is modelled by insertion
sort, which produces such a permutation (elements equal in both priority and
timestamp are interchangeable for every property below). -/
def sortQueue (q : List QueueItem) : List QueueItem :=
  q.insertionSort queueLE

/-- The enqueue path taken when the concurrency limit is reached:
`this.queue.push(item); this.sortQueue()`. -/
def enqueueQueued (item : QueueItem) (q : List QueueItem) : List QueueItem :=
  sortQueue (q ++ [item])

/-- `processQueue()`: `while (activeRequests < maxConcurrent && queue.length
> 0)` shift the head and start it.  Returns the dispatched items in dispatch
order, the new active count, and the remaining queue. -/
def processQueue (maxConcurrent : Nat) :
    Nat → List QueueItem → List QueueItem × Nat × List QueueItem
  | active, [] => ([], active, [])
  | active, item :: rest =>
      if active < maxConcurrent then
        let (d, a, r) := processQueue maxConcurrent (active + 1) rest
        (item :: d, a, r)
      else
        ([], active, item :: rest)

/-! ## Rate limiter (`src/src/lib/features/queue/manager.ts`,
`RateLimiter`) -/

/-- The mutable state of a `RateLimiter`: the recorded admission timestamps
and the number of queued tasks (task payloads are irrelevant to the window
invariant). -/
structure RateLimiterState where
  requestTimestamps : List Nat
  queueLength : Nat
deriving DecidableEq, Repr

/-- `RateLimiter.processQueue()` at time `now` with `maxRequests` and
`perMilliseconds` already defaulted: drop timestamps outside the sliding
window (`now - ts < per`), then `while (queue.length > 0 &&
requestTimestamps.length < maxRequests)` shift a task, record `now`, and
start it.  The loop dispatches `min queueLength (maxRequests - len)` tasks
when `len < maxRequests` and none otherwise; returns the new state and the
number of tasks dispatched. -/
def rlProcessQueue (maxRequests per now : Nat) (s : RateLimiterState) :
    RateLimiterState × Nat :=
  let ts := s.requestTimestamps.filter fun t => now - t < per
  let k := if ts.length < maxRequests then min s.queueLength (maxRequests - ts.length) else 0
  ({ requestTimestamps := ts ++ List.replicate k now,
     queueLength := s.queueLength - k }, k)

/-- An operation on the rate limiter: `enqueue` pushes a task and runs
`processQueue`; `tick` is the periodic `setTimeout` re-evaluation, which just
runs `processQueue`. -/
inductive RLOp where
  | enqueue (now : Nat)
  | tick (now : Nat)
deriving DecidableEq, Repr

/-- Apply one operation at its timestamp. -/
def rlStep (maxRequests per : Nat) (s : RateLimiterState) : RLOp → RateLimiterState
  | .enqueue now =>
      (rlProcessQueue maxRequests per now
        { s with queueLength := s.queueLength + 1 }).1
  | .tick now => (rlProcessQueue maxRequests per now s).1

/-- Run a sequence of operations from the initial state (no timestamps, no
queued tasks). -/
def rlRun (maxRequests per : Nat) (ops : List RLOp) : RateLimiterState :=
  ops.foldl (rlStep maxRequests per) ⟨[], 0⟩

/-! ## The core request path (`src/src/lib/client/voxa.ts`, `Voxa.request`,
together with `dispatchRequest` in `src/src/lib/client/request.ts`) -/

/-- The resilience components of the design, plus the auxiliary managers the
request path does use. -/
inductive PipelineComponent where
  | deduplicator
  | responseCache
  | rateLimiter
  | circuitBreaker
  | admissionQueue
  | retryEngine
  | safetyGuard
  | metadata
  | interceptors
  | errorClassifier
deriving DecidableEq, Repr

/-- The components consulted, in order, by the core request path, transcribed
from `Voxa.request` (lines 44–155 of `src/src/lib/client/voxa.ts`) and the
`dispatchRequest` it delegates to (lines 22–115 of
`src/src/lib/client/request.ts`):

1. `metadataManager.set(requestId, metadata)`;
2. the request-interceptor loop;
3. `dispatchRequest(...)`, whose retry loop runs the SafetyGuard checks
   (`isValidUrl`, `isPrivateIp`, `filterHeaders`, and the post-hoc redirect
   check) inside each attempt;
4. the response-interceptor loop;
5. error classification via `errorClassifier` on the failure paths.

No statement of either function invokes `deduplicationManager.getPending` /
`setPending`, `cacheManager.get` / `set`, a `RateLimiter`,
`CircuitBreakerManager.canAttemptRequest` / `recordFailure` /
`recordSuccess`, or `queueManager.enqueue`: those managers are constructed in
the `Voxa` constructor (or merely declared as fields) but never consulted on
this path. -/
def requestPathComponents : List PipelineComponent :=
  [.metadata, .interceptors, .retryEngine, .safetyGuard, .interceptors,
   .errorClassifier]

/-- The composed pipeline order the design intends for the request path. -/
def designedPipelineComponents : List PipelineComponent :=
  [.deduplicator, .responseCache, .rateLimiter, .circuitBreaker,
   .admissionQueue, .retryEngine, .safetyGuard]

/-! ## Theorems -/

/-- **C1.** The claim says every call entering the core request path consults
the Deduplicator, ResponseCache, RateLimiter, CircuitBreaker, AdmissionQueue,
RetryEngine and SafetyGuard in the composed pipeline order.  On the code this
fails: the path `Voxa.request → dispatchRequest` consults only the metadata
manager, the interceptors, the retry loop with its SafetyGuard checks, and
the error classifier; none of the five resilience components appears on it,
so in particular the designed pipeline is not a subsequence of the actual
path. -/
theorem request_path_omits_resilience_components :
    PipelineComponent.deduplicator ∉ requestPathComponents ∧
    PipelineComponent.responseCache ∉ requestPathComponents ∧
    PipelineComponent.rateLimiter ∉ requestPathComponents ∧
    PipelineComponent.circuitBreaker ∉ requestPathComponents ∧
    PipelineComponent.admissionQueue ∉ requestPathComponents ∧
    PipelineComponent.retryEngine ∈ requestPathComponents ∧
    PipelineComponent.safetyGuard ∈ requestPathComponents ∧
    ¬ designedPipelineComponents.Sublist requestPathComponents := by
  decide

/-- **C2.** The claim says `validate("http://127.0.0.1/admin")` and
`validate("http://169.254.169.254/")` are both blocked while a URL resolving
only to public addresses is ok.  On the code, the loopback literal is indeed
recognised as private and the publicly-resolving hostname as public, but
`privateRanges` contains no entry for the IPv4 link-local block
`169.254.0.0/16`, so `isPrivateIp` returns `false` on the cloud-metadata
address `169.254.169.254` and the request is *not* blocked. -/
theorem isPrivateIp_misses_ipv4_link_local :
    isPrivateIp (some (.ip (.v4 [127, 0, 0, 1]))) (fun _ => none) = true ∧
    isPrivateIp (some (.ip (.v4 [169, 254, 169, 254]))) (fun _ => none) = false ∧
    addrIsPrivate (.v4 [169, 254, 169, 254]) = false ∧
    isPrivateIp (some (.name "api.example.com"))
      (fun h => if h = "api.example.com" then some [.v4 [93, 184, 216, 34]] else none)
      = false := by
  decide

/-- **C10.** For every URL string whose syntactic parsing throws (modelled by
`parsed = none`) or whose hostname resolution throws (modelled by
`lookup h = none`), `isPrivateIp` returns `false`: the private-address check
fails open on parse and resolver errors, admitting the request. -/
theorem isPrivateIp_fails_open (lookup : String → Option (List IpAddr))
    (h : String) (hl : lookup h = none) :
    isPrivateIp none lookup = false ∧
    isPrivateIp (some (.name h)) lookup = false := by
  refine ⟨rfl, ?_⟩
  simp [isPrivateIp, hl]

/-- Witness for `isPrivateIp_fails_open`, at a resolver that rejects every
hostname. -/
theorem isPrivateIp_fails_open_witness :
    (fun _ : String => (none : Option (List IpAddr))) "api.internal" = none ∧
    (isPrivateIp none (fun _ => none) = false ∧
      isPrivateIp (some (.name "api.internal")) (fun _ => none) = false) :=
  ⟨rfl, isPrivateIp_fails_open (fun _ => none) "api.internal" rfl⟩

/-- **C3.** With `threshold = 3`, from the initial CLOSED state with failure
count 0, three consecutive `recordFailure` calls (at times `t1, t2, t3`) move
the state CLOSED → OPEN (the first two leave it CLOSED); afterwards
`canAttemptRequest` returns `false` and leaves the state untouched as long as
at most `timeout` ms have elapsed since the last failure, and once more than
`timeout` ms have elapsed it returns `true` while moving the state to
HALF_OPEN as a side effect; a subsequent `recordSuccess` returns the state to
CLOSED with failure count 0. -/
theorem circuit_breaker_threshold3_lifecycle (T t1 t2 t3 now1 now2 : Nat)
    (h1 : now1 - t3 ≤ T) (h2 : now2 - t3 > T) :
    (runCB ⟨some 3, some T⟩ {} [.fail t1]).state = .closed ∧
    (runCB ⟨some 3, some T⟩ {} [.fail t1, .fail t2]).state = .closed ∧
    runCB ⟨some 3, some T⟩ {} [.fail t1, .fail t2, .fail t3] =
      { state := .opened, failureCount := 3, lastFailureTime := t3,
        onOpenCalls := 1 } ∧
    canAttemptRequest ⟨some 3, some T⟩ now1
        (runCB ⟨some 3, some T⟩ {} [.fail t1, .fail t2, .fail t3]) =
      (false, runCB ⟨some 3, some T⟩ {} [.fail t1, .fail t2, .fail t3]) ∧
    canAttemptRequest ⟨some 3, some T⟩ now2
        (runCB ⟨some 3, some T⟩ {} [.fail t1, .fail t2, .fail t3]) =
      (true, { state := .halfOpen, failureCount := 3, lastFailureTime := t3,
               onOpenCalls := 1 }) ∧
    recordSuccess (canAttemptRequest ⟨some 3, some T⟩ now2
        (runCB ⟨some 3, some T⟩ {} [.fail t1, .fail t2, .fail t3])).2 =
      { state := .closed, failureCount := 0, lastFailureTime := t3,
        onOpenCalls := 1 } := by
  have hrun : runCB ⟨some 3, some T⟩ {} [.fail t1, .fail t2, .fail t3] =
      { state := .opened, failureCount := 3, lastFailureTime := t3,
        onOpenCalls := 1 } := rfl
  have hca1 : canAttemptRequest ⟨some 3, some T⟩ now1
      ({ state := .opened, failureCount := 3, lastFailureTime := t3,
         onOpenCalls := 1 } : CircuitBreakerManager) =
      (false, { state := .opened, failureCount := 3, lastFailureTime := t3,
                onOpenCalls := 1 }) := by
    unfold canAttemptRequest
    dsimp only [Option.getD]
    rw [if_neg (by omega)]
  have hca2 : canAttemptRequest ⟨some 3, some T⟩ now2
      ({ state := .opened, failureCount := 3, lastFailureTime := t3,
         onOpenCalls := 1 } : CircuitBreakerManager) =
      (true, { state := .halfOpen, failureCount := 3, lastFailureTime := t3,
               onOpenCalls := 1 }) := by
    unfold canAttemptRequest
    dsimp only [Option.getD]
    rw [if_pos (by omega)]
  refine ⟨rfl, rfl, hrun, ?_, ?_, ?_⟩
  · rw [hrun, hca1]
  · rw [hrun, hca2]
  · rw [hrun, hca2]
    rfl

/-- Witness for `circuit_breaker_threshold3_lifecycle`: `timeout = 10`,
failures at 0, 1, 2; a check at 12 (10 ms elapsed) is still refused, a check
at 13 (11 ms elapsed) is admitted and half-opens the circuit. -/
theorem circuit_breaker_threshold3_lifecycle_witness :
    12 - 2 ≤ 10 ∧ 13 - 2 > 10 ∧
    ((runCB ⟨some 3, some 10⟩ {} [.fail 0]).state = .closed ∧
     (runCB ⟨some 3, some 10⟩ {} [.fail 0, .fail 1]).state = .closed ∧
     runCB ⟨some 3, some 10⟩ {} [.fail 0, .fail 1, .fail 2] =
       { state := .opened, failureCount := 3, lastFailureTime := 2,
         onOpenCalls := 1 } ∧
     canAttemptRequest ⟨some 3, some 10⟩ 12
         (runCB ⟨some 3, some 10⟩ {} [.fail 0, .fail 1, .fail 2]) =
       (false, runCB ⟨some 3, some 10⟩ {} [.fail 0, .fail 1, .fail 2]) ∧
     canAttemptRequest ⟨some 3, some 10⟩ 13
         (runCB ⟨some 3, some 10⟩ {} [.fail 0, .fail 1, .fail 2]) =
       (true, { state := .halfOpen, failureCount := 3, lastFailureTime := 2,
                onOpenCalls := 1 }) ∧
     recordSuccess (canAttemptRequest ⟨some 3, some 10⟩ 13
         (runCB ⟨some 3, some 10⟩ {} [.fail 0, .fail 1, .fail 2])).2 =
       { state := .closed, failureCount := 0, lastFailureTime := 2,
         onOpenCalls := 1 }) :=
  ⟨by decide, by decide,
   circuit_breaker_threshold3_lifecycle 10 0 1 2 12 13 (by decide) (by decide)⟩

/-- **C4, counterexample.** The claim says `onOpen` fires exactly once per
CLOSED → OPEN transition and never on a failure recorded while the state is
already OPEN.  On the code, with `threshold = 3`, the third `recordFailure`
opens the circuit and fires `onOpen`; a fourth `recordFailure`, arriving with
the state already OPEN, performs no CLOSED → OPEN transition (the run
contains exactly one) yet fires `onOpen` again, because `shouldOpenCircuit`
keeps holding once `failureCount ≥ threshold`. -/
theorem onOpen_fires_while_already_open :
    (runCB ⟨some 3, none⟩ {} [.fail 0, .fail 1, .fail 2]).state = .opened ∧
    (runCB ⟨some 3, none⟩ {} [.fail 0, .fail 1, .fail 2]).onOpenCalls = 1 ∧
    (runCB ⟨some 3, none⟩ {} [.fail 0, .fail 1, .fail 2, .fail 3]).state
      = .opened ∧
    (runCB ⟨some 3, none⟩ {} [.fail 0, .fail 1, .fail 2, .fail 3]).onOpenCalls
      = 2 ∧
    closedToOpenEvents ⟨some 3, none⟩ {} [.fail 0, .fail 1, .fail 2, .fail 3]
      = 1 := by
  decide

/-- `canAttemptRequest` changes at most the `state` field: the failure count
and the `onOpen` invocation count are untouched by the check. -/
theorem canAttemptRequest_preserves_counts (cfg : CircuitBreakerConfig)
    (now : Nat) (cb : CircuitBreakerManager) :
    (canAttemptRequest cfg now cb).2.onOpenCalls = cb.onOpenCalls ∧
    (canAttemptRequest cfg now cb).2.failureCount = cb.failureCount := by
  obtain ⟨st, fc, lf, oc⟩ := cb
  cases st <;> simp [canAttemptRequest]
  split <;> simp

/-- The `onOpen` invocation count of a run equals the starting count plus the
number of `recordFailure` events whose post-increment failure count reaches
the threshold. -/
theorem runCB_onOpenCalls (cfg : CircuitBreakerConfig) (ops : List CBOp) :
    ∀ cb : CircuitBreakerManager,
      (runCB cfg cb ops).onOpenCalls =
        cb.onOpenCalls + onOpenEvents (cfg.threshold.getD 5) cb.failureCount ops := by
  induction ops with
  | nil => intro cb; simp [runCB, onOpenEvents]
  | cons op ops ih =>
    intro cb
    have hstep : runCB cfg cb (op :: ops) = runCB cfg (applyCBOp cfg cb op) ops := rfl
    rw [hstep, ih]
    cases op with
    | fail now =>
      by_cases h : cb.failureCount + 1 ≥ cfg.threshold.getD 5
      · simp [applyCBOp, recordFailure, shouldOpenCircuit, h, onOpenEvents]
        omega
      · simp [applyCBOp, recordFailure, shouldOpenCircuit, h, onOpenEvents]
    | succeed => simp [applyCBOp, recordSuccess, onOpenEvents]
    | attempt now =>
      have hp := canAttemptRequest_preserves_counts cfg now cb
      rw [show applyCBOp cfg cb (.attempt now) = (canAttemptRequest cfg now cb).2 from rfl,
        hp.1, hp.2]
      simp [onOpenEvents]

/-- Every CLOSED → OPEN transition in a run is accompanied by an `onOpen`
invocation, so the number of transitions never exceeds the invocation
count. -/
theorem closedToOpenEvents_le_onOpenCalls (cfg : CircuitBreakerConfig)
    (ops : List CBOp) :
    ∀ cb : CircuitBreakerManager,
      cb.onOpenCalls + closedToOpenEvents cfg cb ops ≤
        (runCB cfg cb ops).onOpenCalls := by
  induction ops with
  | nil => intro cb; simp [runCB, closedToOpenEvents]
  | cons op ops ih =>
    intro cb
    have hstep : runCB cfg cb (op :: ops) = runCB cfg (applyCBOp cfg cb op) ops := rfl
    rw [hstep]
    have ih' := ih (applyCBOp cfg cb op)
    have hkey : cb.onOpenCalls +
        (if cb.state = CircuitState.closed ∧
            (applyCBOp cfg cb op).state = CircuitState.opened then 1 else 0) ≤
        (applyCBOp cfg cb op).onOpenCalls := by
      cases op with
      | fail now =>
        by_cases h : shouldOpenCircuit cfg
            { cb with failureCount := cb.failureCount + 1, lastFailureTime := now }
        · simp [applyCBOp, recordFailure, h]
          split <;> omega
        · simp [applyCBOp, recordFailure, h]
          intro hcl
          simp [hcl]
      | succeed => simp [applyCBOp, recordSuccess]
      | attempt now =>
        have hp := canAttemptRequest_preserves_counts cfg now cb
        obtain ⟨st, fc, lf, oc⟩ := cb
        cases st <;> simp [applyCBOp, canAttemptRequest]
        split <;> simp
    have hunfold : closedToOpenEvents cfg cb (op :: ops) =
        (if cb.state = CircuitState.closed ∧
            (applyCBOp cfg cb op).state = CircuitState.opened then 1 else 0) +
          closedToOpenEvents cfg (applyCBOp cfg cb op) ops := rfl
    rw [hunfold]
    omega

/-- **C4, amended.** Along every operation sequence from the initial state,
`onOpen` is invoked exactly on those `recordFailure` calls whose
post-increment failure count reaches the threshold — once when the count
first crosses the threshold (the CLOSED → OPEN transition) and again on every
further failure recorded while the count stays at or above it, even though no
CLOSED → OPEN transition takes place then; in particular the invocation count
is at least the number of CLOSED → OPEN transitions. -/
theorem onOpen_invocation_count (cfg : CircuitBreakerConfig) (ops : List CBOp) :
    (runCB cfg {} ops).onOpenCalls =
      onOpenEvents (cfg.threshold.getD 5) 0 ops ∧
    closedToOpenEvents cfg {} ops ≤ (runCB cfg {} ops).onOpenCalls := by
  constructor
  · simpa using runCB_onOpenCalls cfg ops {}
  · simpa using closedToOpenEvents_le_onOpenCalls cfg ops {}

/-- **C5, counterexample.** The claim says that with exponential backoff
disabled the retry delay equals the constant `delay`.  On the code the
constant branch is also clamped by `Math.min(waitTime, maxRetry)`: with
`delay = 2000` and `maxRetry = 1000` the computed delay is 1000, not the
constant 2000. -/
theorem calculateRetryDelay_constant_branch_clamps :
    calculateRetryDelay 0 2000 false 1000 = 1000 ∧
    calculateRetryDelay 0 2000 false 1000 ≠ 2000 := by
  decide

/-- **C5, amended.** For every attempt index `n ≥ 0` the retry delay equals
`min(delay × 2^n, maxRetry)` when exponential backoff is enabled and
`min(delay, maxRetry)` otherwise; for nonnegative `delay` and `maxRetry` it
is never negative and never exceeds `maxRetry`; in particular with
`delay = 100`, exponential backoff, `maxRetry = 1000` the delays for attempts
0..4 are 100, 200, 400, 800, 1000 (the fifth clamping to the max). -/
theorem calculateRetryDelay_spec (n : Nat) (b : Bool) (delay maxRetry : Int)
    (hd : 0 ≤ delay) (hm : 0 ≤ maxRetry) :
    calculateRetryDelay n delay true maxRetry = min (delay * 2 ^ n) maxRetry ∧
    calculateRetryDelay n delay false maxRetry = min delay maxRetry ∧
    0 ≤ calculateRetryDelay n delay b maxRetry ∧
    calculateRetryDelay n delay b maxRetry ≤ maxRetry ∧
    calculateRetryDelay 0 100 true 1000 = 100 ∧
    calculateRetryDelay 1 100 true 1000 = 200 ∧
    calculateRetryDelay 2 100 true 1000 = 400 ∧
    calculateRetryDelay 3 100 true 1000 = 800 ∧
    calculateRetryDelay 4 100 true 1000 = 1000 := by
  refine ⟨rfl, rfl, ?_, ?_, by decide, by decide, by decide, by decide, by decide⟩
  · cases b with
    | true =>
        exact le_min (mul_nonneg hd (pow_nonneg (by norm_num) n)) hm
    | false => exact le_min hd hm
  · cases b with
    | true => exact min_le_right _ _
    | false => exact min_le_right _ _

/-- Witness for `calculateRetryDelay_spec` at the claim's own configuration,
attempt 4. -/
theorem calculateRetryDelay_spec_witness :
    (0 : Int) ≤ 100 ∧ (0 : Int) ≤ 1000 ∧
    (calculateRetryDelay 4 100 true 1000 = min (100 * 2 ^ 4) 1000 ∧
     calculateRetryDelay 4 100 false 1000 = min 100 1000 ∧
     0 ≤ calculateRetryDelay 4 100 true 1000 ∧
     calculateRetryDelay 4 100 true 1000 ≤ 1000 ∧
     calculateRetryDelay 0 100 true 1000 = 100 ∧
     calculateRetryDelay 1 100 true 1000 = 200 ∧
     calculateRetryDelay 2 100 true 1000 = 400 ∧
     calculateRetryDelay 3 100 true 1000 = 800 ∧
     calculateRetryDelay 4 100 true 1000 = 1000) :=
  ⟨by decide, by decide,
   calculateRetryDelay_spec 4 true 100 1000 (by decide) (by decide)⟩

/-- Each iteration of the dispatch loop consumes one unit of fuel, so the
number of attempts performed is bounded by the fuel. -/
theorem dispatchLoop_attempts_le (outcomes : Nat → AttemptOutcome)
    (count : Int) (codes : Option (List Nat)) :
    ∀ (fuel attempt : Nat),
      (dispatchLoop outcomes count codes attempt fuel).1 ≤ fuel := by
  intro fuel
  induction fuel with
  | zero => intro attempt; simp [dispatchLoop]
  | succ f ih =>
    intro attempt
    unfold dispatchLoop
    cases outcomes attempt with
    | response s =>
        dsimp only
        split
        · have := ih (attempt + 1)
          simpa using Nat.succ_le_succ this
        · omega
    | blocked => dsimp only; omega
    | networkError retryable =>
        dsimp only
        split
        · have := ih (attempt + 1)
          simpa using Nat.succ_le_succ this
        · omega
    | abortedSignal => dsimp only; omega

/-- **C6.** For every retry configuration and every behaviour of the
environment, the dispatch loop performs at most `count + 1` attempts, where
the effective `count` is the configured value clamped to the hard ceiling 5
by `getRetryConfig`; consequently no request ever performs more than 6
attempts. -/
theorem dispatch_attempt_bound (cfgCount : Option Int)
    (codes : Option (List Nat)) (outcomes : Nat → AttemptOutcome) :
    dispatchAttempts cfgCount codes outcomes ≤ (getRetryCount cfgCount + 1).toNat ∧
    dispatchAttempts cfgCount codes outcomes ≤ 6 := by
  have h := dispatchLoop_attempts_le outcomes (getRetryCount cfgCount) codes
    (getRetryCount cfgCount + 1).toNat 0
  have hcap : getRetryCount cfgCount ≤ 5 := min_le_right _ _
  exact ⟨h, le_trans h (by omega)⟩

/-- Looking up a key just written by `listSet` yields the written entry. -/
theorem listGet_listSet_self (key : String) (v : CacheEntryM) :
    ∀ s, listGet key (listSet key v s) = some v := by
  intro s
  induction s with
  | nil => simp [listSet, listGet]
  | cons p rest ih =>
    obtain ⟨k, w⟩ := p
    by_cases h : k = key
    · simp [listSet, listGet, h]
    · simp [listSet, listGet, h, ih]

/-- A key absent from an association list is not found by `listGet`. -/
theorem listGet_eq_none_of_not_mem (key : String) :
    ∀ s : List (String × CacheEntryM), key ∉ s.map Prod.fst →
      listGet key s = none := by
  intro s
  induction s with
  | nil => intro _; rfl
  | cons p rest ih =>
    obtain ⟨k, w⟩ := p
    intro hmem
    rw [List.map_cons, List.mem_cons] at hmem
    push_neg at hmem
    rw [show listGet key ((k, w) :: rest) = listGet key rest from by
      simp [listGet, Ne.symm hmem.1]]
    exact ih hmem.2

/-- The key list after a `listSet`: unchanged when the key was present,
extended by the key at the back otherwise. -/
theorem keys_listSet (key : String) (v : CacheEntryM) :
    ∀ s : List (String × CacheEntryM),
      (listSet key v s).map Prod.fst =
        if key ∈ s.map Prod.fst then s.map Prod.fst
        else s.map Prod.fst ++ [key] := by
  intro s
  induction s with
  | nil => simp [listSet]
  | cons p rest ih =>
    obtain ⟨k, w⟩ := p
    by_cases h : k = key
    · subst h
      rw [show listSet k v ((k, w) :: rest) = (k, v) :: rest from by simp [listSet]]
      simp
    · rw [show listSet key v ((k, w) :: rest) = (k, w) :: listSet key v rest from by
        simp [listSet, h]]
      rw [List.map_cons, ih, List.map_cons]
      by_cases hk : key ∈ rest.map Prod.fst
      · simp [hk, Ne.symm h]
      · simp [hk, Ne.symm h]

/-- `listSet` preserves distinctness of keys (the `Map` invariant). -/
theorem nodup_keys_listSet (key : String) (v : CacheEntryM)
    (s : List (String × CacheEntryM)) (hnd : (s.map Prod.fst).Nodup) :
    ((listSet key v s).map Prod.fst).Nodup := by
  rw [keys_listSet]
  by_cases hk : key ∈ s.map Prod.fst
  · simpa [hk] using hnd
  · rw [if_neg hk, List.nodup_append]
    exact ⟨hnd, List.nodup_singleton _, by simpa using hk⟩

/-- On a duplicate-free association list, `listDelete` really removes the
key: a subsequent lookup misses. -/
theorem listGet_listDelete_self (key : String) :
    ∀ s : List (String × CacheEntryM), (s.map Prod.fst).Nodup →
      listGet key (listDelete key s) = none := by
  intro s
  induction s with
  | nil => intro _; rfl
  | cons p rest ih =>
    obtain ⟨k, w⟩ := p
    intro hnd
    rw [List.map_cons, List.nodup_cons] at hnd
    by_cases h : k = key
    · rw [show listDelete key ((k, w) :: rest) = rest from by simp [listDelete, h]]
      apply listGet_eq_none_of_not_mem
      rw [← h]
      exact hnd.1
    · rw [show listDelete key ((k, w) :: rest) = (k, w) :: listDelete key rest from by
        simp [listDelete, h]]
      rw [show listGet key ((k, w) :: listDelete key rest) =
          listGet key (listDelete key rest) from by simp [listGet, h]]
      exact ih hnd.2

/-- `withStore` writes exactly the selected store. -/
theorem withStore_store (m : CacheManagerM) (s : List (String × CacheEntryM)) :
    (m.withStore s).store = s := by
  obtain ⟨en, ttl, st, a, b, c⟩ := m
  cases st <;> rfl

/-- `withStore` leaves the configuration untouched. -/
theorem withStore_enabled (m : CacheManagerM) (s : List (String × CacheEntryM)) :
    (m.withStore s).enabled = m.enabled := by
  obtain ⟨en, ttl, st, a, b, c⟩ := m
  cases st <;> rfl

/-- **C7.** For an enabled cache with any storage backend (memory, file or
custom) whose store has distinct keys, a `set(key, response, ttl)` at time
`now` (with a truthy `ttl`) creates an entry whose absolute expiry equals its
creation time plus the TTL; a subsequent `get(key)` at time `now'` returns
the stored entry iff `now' < now + ttl`, and on staleness it deletes the
entry — the expiry re-validation happens in every storage branch, including
the file and custom backends that do not auto-expire. -/
theorem cache_set_get_ttl (m : CacheManagerM) (key resp : String)
    (v now now' : Nat) (hen : m.enabled = true) (hv : v ≠ 0)
    (hnd : (m.store.map Prod.fst).Nodup) :
    listGet key (cacheSet key resp (some v) now m).store =
      some ⟨resp, now, v, now + v⟩ ∧
    (cacheGet key now' (cacheSet key resp (some v) now m)).1 =
      (if now' < now + v then some ⟨resp, now, v, now + v⟩ else none) ∧
    (now + v ≤ now' →
      listGet key (cacheGet key now' (cacheSet key resp (some v) now m)).2.store =
        none) := by
  have hset : cacheSet key resp (some v) now m =
      m.withStore (listSet key ⟨resp, now, v, now + v⟩ m.store) := by
    unfold cacheSet
    rw [if_neg (by simp [hen])]
    simp [orFalsy, hv]
  have hstore : (cacheSet key resp (some v) now m).store =
      listSet key ⟨resp, now, v, now + v⟩ m.store := by
    rw [hset, withStore_store]
  have hen' : (cacheSet key resp (some v) now m).enabled = true := by
    rw [hset, withStore_enabled]
    exact hen
  have hget1 : listGet key (cacheSet key resp (some v) now m).store =
      some ⟨resp, now, v, now + v⟩ := by
    rw [hstore]
    exact listGet_listSet_self key _ m.store
  refine ⟨hget1, ?_, ?_⟩
  · unfold cacheGet
    rw [if_neg (by simp [hen'])]
    rw [hget1]
    by_cases hlt : now' < now + v
    · simp [cacheIsValid, hlt]
    · simp [cacheIsValid, hlt]
  · intro hle
    unfold cacheGet
    rw [if_neg (by simp [hen'])]
    rw [hget1]
    dsimp only
    rw [if_pos (by simp [cacheIsValid]; omega)]
    dsimp only
    rw [withStore_store, hstore]
    exact listGet_listDelete_self key _ (nodup_keys_listSet key _ m.store hnd)

/-- Witness for `cache_set_get_ttl`: a file-backed cache, `ttl = 100` ms,
written at t = 0 and probed at t = 101, where the entry is stale, reported as
a miss, and deleted. -/
theorem cache_set_get_ttl_witness :
    (({ enabled := true, configTtl := none, storage := .file } :
        CacheManagerM)).enabled = true ∧
    (100 : Nat) ≠ 0 ∧
    ((({ enabled := true, configTtl := none, storage := .file } :
        CacheManagerM)).store.map Prod.fst).Nodup ∧
    (listGet "k" (cacheSet "k" "r" (some 100) 0
        { enabled := true, configTtl := none, storage := .file }).store =
      some ⟨"r", 0, 100, 0 + 100⟩ ∧
    (cacheGet "k" 101 (cacheSet "k" "r" (some 100) 0
        { enabled := true, configTtl := none, storage := .file })).1 =
      (if 101 < 0 + 100 then some ⟨"r", 0, 100, 0 + 100⟩ else none) ∧
    (0 + 100 ≤ 101 →
      listGet "k" (cacheGet "k" 101 (cacheSet "k" "r" (some 100) 0
          { enabled := true, configTtl := none, storage := .file })).2.store =
        none)) :=
  ⟨rfl, by decide, by decide,
   cache_set_get_ttl { enabled := true, configTtl := none, storage := .file }
     "k" "r" 100 0 101 rfl (by decide) (by decide)⟩

/-- **C8.** After every enqueue the admission queue is ordered by priority
(`critical > high > normal > low`) with FIFO tie-breaking by enqueue
timestamp, and is a permutation of the pushed items; consequently, enqueuing
items of priorities `[low, critical, normal, high]` while at full concurrency
(`activeRequests = maxConcurrent = 6`) and then freeing one slot at a time
dispatches `critical` first, then `high`, then `normal`, then `low`. -/
theorem queue_priority_ordering :
    (∀ (q : List QueueItem) (item : QueueItem),
      (enqueueQueued item q).Sorted queueLE) ∧
    (∀ (q : List QueueItem) (item : QueueItem),
      (enqueueQueued item q).Perm (q ++ [item])) ∧
    (enqueueQueued ⟨"high", .high, 4⟩ (enqueueQueued ⟨"normal", .normal, 3⟩
        (enqueueQueued ⟨"critical", .critical, 2⟩
          (enqueueQueued ⟨"low", .low, 1⟩ [])))).map QueueItem.id =
      ["critical", "high", "normal", "low"] ∧
    (processQueue 6 5 (enqueueQueued ⟨"high", .high, 4⟩
        (enqueueQueued ⟨"normal", .normal, 3⟩ (enqueueQueued ⟨"critical", .critical, 2⟩
          (enqueueQueued ⟨"low", .low, 1⟩ []))))).1.map QueueItem.id =
      ["critical"] ∧
    (processQueue 6 5 (processQueue 6 5 (enqueueQueued ⟨"high", .high, 4⟩
        (enqueueQueued ⟨"normal", .normal, 3⟩ (enqueueQueued ⟨"critical", .critical, 2⟩
          (enqueueQueued ⟨"low", .low, 1⟩ []))))).2.2).1.map QueueItem.id =
      ["high"] ∧
    (processQueue 6 5 (processQueue 6 5 (processQueue 6 5
        (enqueueQueued ⟨"high", .high, 4⟩ (enqueueQueued ⟨"normal", .normal, 3⟩
          (enqueueQueued ⟨"critical", .critical, 2⟩
            (enqueueQueued ⟨"low", .low, 1⟩ []))))).2.2).2.2).1.map QueueItem.id =
      ["normal"] ∧
    (processQueue 6 5 (processQueue 6 5 (processQueue 6 5 (processQueue 6 5
        (enqueueQueued ⟨"high", .high, 4⟩ (enqueueQueued ⟨"normal", .normal, 3⟩
          (enqueueQueued ⟨"critical", .critical, 2⟩
            (enqueueQueued ⟨"low", .low, 1⟩ []))))).2.2).2.2).2.2).1.map QueueItem.id =
      ["low"] := by
  refine ⟨fun q item => List.sorted_insertionSort queueLE (q ++ [item]),
    fun q item => List.perm_insertionSort queueLE (q ++ [item]),
    by decide, by decide, by decide, by decide, by decide⟩

/-- One `RateLimiter.processQueue` pass cannot grow the timestamp list past
`maxRequests` when it was within the bound before. -/
theorem rlProcessQueue_length_le (maxR per now : Nat) (s : RateLimiterState)
    (h : s.requestTimestamps.length ≤ maxR) :
    (rlProcessQueue maxR per now s).1.requestTimestamps.length ≤ maxR := by
  unfold rlProcessQueue
  dsimp only
  have hf : (s.requestTimestamps.filter fun t => now - t < per).length ≤
      s.requestTimestamps.length := List.length_filter_le _ _
  split
  · rename_i hlt
    simp only [List.length_append, List.length_replicate]
    omega
  · simp only [List.length_append, List.length_replicate]
    omega

/-- Reachability form of the window bound: from the initial state, every
operation sequence leaves at most `maxRequests` recorded timestamps. -/
theorem rlRun_timestamps_le (maxR per : Nat) (ops : List RLOp) :
    (rlRun maxR per ops).requestTimestamps.length ≤ maxR := by
  suffices h : ∀ s : RateLimiterState, s.requestTimestamps.length ≤ maxR →
      (ops.foldl (rlStep maxR per) s).requestTimestamps.length ≤ maxR by
    exact h ⟨[], 0⟩ (by simp)
  induction ops with
  | nil => intro s hs; simpa using hs
  | cons op ops ih =>
    intro s hs
    rw [List.foldl_cons]
    apply ih
    cases op with
    | enqueue now => exact rlProcessQueue_length_le maxR per now _ hs
    | tick now => exact rlProcessQueue_length_le maxR per now _ hs

/-- **C9.** After every enqueue and every periodic re-evaluation from the
initial state the rate limiter's window invariant holds: the number of
recorded admission timestamps — in particular the number of them inside the
last `perMilliseconds` window — never exceeds `maxRequests`; moreover a
`processQueue` pass dispatches a queued task (recording its timestamp) only
when the in-window count is strictly under `maxRequests`. -/
theorem rate_window_invariant (maxR per now : Nat) (ops : List RLOp)
    (s : RateLimiterState)
    (hdisp : 0 < (rlProcessQueue maxR per now s).2) :
    (rlRun maxR per ops).requestTimestamps.length ≤ maxR ∧
    ((rlRun maxR per ops).requestTimestamps.filter
        fun t => now - t < per).length ≤ maxR ∧
    (s.requestTimestamps.filter fun t => now - t < per).length < maxR := by
  refine ⟨rlRun_timestamps_le maxR per ops,
    le_trans (List.length_filter_le _ _) (rlRun_timestamps_le maxR per ops), ?_⟩
  by_contra hge
  unfold rlProcessQueue at hdisp
  dsimp only at hdisp
  rw [if_neg hge] at hdisp
  exact absurd hdisp (lt_irrefl 0)

/-- Witness for `rate_window_invariant`: `maxRequests = 2`, three enqueues —
only two timestamps are recorded; and a pass over a state with an empty
window and three queued tasks dispatches (so its window count was under the
limit). -/
theorem rate_window_invariant_witness :
    0 < (rlProcessQueue 2 100 50 ⟨[], 3⟩).2 ∧
    ((rlRun 2 100 [.enqueue 10, .enqueue 20, .enqueue 30]).requestTimestamps.length ≤ 2 ∧
     ((rlRun 2 100 [.enqueue 10, .enqueue 20, .enqueue 30]).requestTimestamps.filter
        fun t => 50 - t < 100).length ≤ 2 ∧
     ((⟨[], 3⟩ : RateLimiterState).requestTimestamps.filter
        fun t => 50 - t < 100).length < 2) :=
  ⟨by decide,
   rate_window_invariant 2 100 50 [.enqueue 10, .enqueue 20, .enqueue 30]
     ⟨[], 3⟩ (by decide)⟩

end Voxa
